import Mathlib

/-!
Verification development for the CDI (Container Device Interface) cache and
registry subsystem of the container-device-interface-rs repository.

Rust strings are embedded as lists of characters (`Str`), hash maps and
BTree maps as association lists, fallible functions as `Except`, and a Rust
panic as `Option.none` on the function result. The embedding follows the
source files src/parser.rs, src/utils.rs, src/specs/config.rs,
src/container_edits.rs, src/version.rs, src/spec.rs, src/spec_dirs.rs and
src/cache.rs. The Unicode classification functions char::is_alphabetic and
char::is_alphanumeric of Rust are modelled by their ASCII fragments
(Char.isAlpha, Char.isAlphanum); every concrete input considered here is
ASCII, where the two agree.
-/

/-- Rust strings, embedded as lists of characters. -/
abbrev Str := List Char

/-- Lookup in an association list, modelling HashMap::get / BTreeMap::get. -/
def lookupA {α : Type} (k : Str) : List (Str × α) → Option α
  | [] => none
  | (k2, v) :: rest => if k2 = k then some v else lookupA k rest

/-- Insert into an association list, modelling HashMap::insert (replace the
existing binding of the key, otherwise add a binding). -/
def insertA {α : Type} (k : Str) (v : α) : List (Str × α) → List (Str × α)
  | [] => [(k, v)]
  | (k2, v2) :: rest => if k2 = k then (k, v) :: rest else (k2, v2) :: insertA k v rest

/-- Remove a key from an association list, modelling HashMap::remove. -/
def eraseA {α : Type} (k : Str) : List (Str × α) → List (Str × α)
  | [] => []
  | (k2, v2) :: rest => if k2 = k then rest else (k2, v2) :: eraseA k rest

/-- Join a list of strings with a separator, modelling slice::join. -/
def joinSep (sep : Str) : List Str → Str
  | [] => []
  | [x] => x
  | x :: rest => x ++ sep ++ joinSep sep rest

/-- Model of Rust char::is_alphabetic (ASCII fragment). -/
def rust_is_alphabetic (c : Char) : Bool := c.isAlpha

/-- Model of Rust char::is_alphanumeric (ASCII fragment). -/
def rust_is_alphanumeric (c : Char) : Bool := c.isAlphanum

/-! ## Qualified-name parser (src/parser.rs) -/

/-- Model of Rust str::split on a single separator character:
the list of (possibly empty) chunks between occurrences of `sep`. -/
def splitOnChar (sep : Char) : Str → List Str
  | [] => [[]]
  | c :: rest =>
    if c = sep then [] :: splitOnChar sep rest
    else
      match splitOnChar sep rest with
      | [] => [[c]]
      | r :: rs => (c :: r) :: rs

/-- qualified_name returns the qualified name vendor/class=name for a device
(parser.rs, fn qualified_name). -/
def qualified_name (vendor cls name : Str) : Str :=
  vendor ++ '/' :: cls ++ '=' :: name

/-- parse_qualifier splits a device qualifier into vendor and class
(parser.rs, fn parse_qualifier): split on the slash, requiring exactly two
non-empty parts, otherwise return an empty vendor and the verbatim input. -/
def parse_qualifier (kind : Str) : Str × Str :=
  match splitOnChar '/' kind with
  | [p0, p1] => if p0 = [] ∨ p1 = [] then ([], kind) else (p0, p1)
  | _ => ([], kind)

/-- parse_device tries to split a device name into vendor, class, and name
(parser.rs, fn parse_device): the text is split on the equals sign and the
split is accepted only when it yields exactly two non-empty parts. -/
def parse_device (device : Str) : Str × Str × Str :=
  if device = [] ∨ device.head? = some '/' then ([], [], device)
  else
    match splitOnChar '=' device with
    | [p0, p1] =>
      if p0 = [] ∨ p1 = [] then ([], [], device)
      else
        let q := parse_qualifier p0
        if q.1 = [] then ([], [], device) else (q.1, q.2, p1)
    | _ => ([], [], device)

/-- validate_vendor_or_class_name (parser.rs): non-empty, first character
alphabetic, all characters alphanumeric or one of dash, underscore, dot. -/
def validate_vendor_or_class_name (name : Str) : Except Str Unit :=
  if name = [] then .error (("empty name").toList)
  else if !(rust_is_alphabetic (name.headD (Char.ofNat 0))) then
    .error (("name should start with a letter").toList)
  else
    match name.find? (fun c =>
        !(rust_is_alphanumeric c) && !(c == '-') && !(c == '_') && !(c == '.')) with
    | some c =>
      .error (("invalid character \x27").toList ++ [c] ++ ("\x27 in name ").toList ++ name)
    | none => .ok ()

/-- validate_vendor_name (parser.rs): validate_vendor_or_class_name with a
vendor-specific error prefix. -/
def validate_vendor_name (vendor : Str) : Except Str Unit :=
  match validate_vendor_or_class_name vendor with
  | .error e => .error (("invalid vendor. ").toList ++ e)
  | .ok _ => .ok ()

/-- validate_class_name (parser.rs): validate_vendor_or_class_name with a
class-specific error prefix. -/
def validate_class_name (cls : Str) : Except Str Unit :=
  match validate_vendor_or_class_name cls with
  | .error e => .error (("invalid class. ").toList ++ e)
  | .ok _ => .ok ()

/-- validate_device_name (parser.rs): non-empty, all characters alphanumeric
or one of dash, underscore, dot, colon (no first-letter constraint). -/
def validate_device_name (name : Str) : Except Str Unit :=
  if name = [] then .error (("empty name").toList)
  else
    match name.find? (fun c =>
        !(rust_is_alphanumeric c) && !(c == '-') && !(c == '_') && !(c == '.')
          && !(c == ':')) with
    | some c =>
      .error (("invalid character \x27").toList ++ [c]
        ++ ("\x27 in device name ").toList ++ name)
    | none => .ok ()

/-- parse_qualified_name (parser.rs): parse_device, then reject empty
components, then validate each component. -/
def parse_qualified_name (device : Str) : Except Str (Str × Str × Str) :=
  let p := parse_device device
  if p.1 = [] then
    .error (("unqualified device ").toList ++ device ++ (", missing vendor").toList)
  else if p.2.1 = [] then
    .error (("unqualified device ").toList ++ device ++ (", missing class").toList)
  else if p.2.2 = [] then
    .error (("unqualified device ").toList ++ device ++ (", missing name").toList)
  else
    match validate_vendor_name p.1 with
    | .error e => .error (("invalid vendor ").toList ++ device ++ (": ").toList ++ e)
    | .ok _ =>
      match validate_class_name p.2.1 with
      | .error e => .error (("invalid class ").toList ++ device ++ (": ").toList ++ e)
      | .ok _ =>
        match validate_device_name p.2.2 with
        | .error e => .error (("invalid device ").toList ++ device ++ (": ").toList ++ e)
        | .ok _ => .ok (p.1, p.2.1, p.2.2)

/-- is_qualified_name (parser.rs): parsing succeeds. -/
def is_qualified_name (name : Str) : Bool :=
  match parse_qualified_name name with
  | .ok _ => true
  | .error _ => false

/-! ## Raw CDI specification records (src/specs/config.rs) -/

/-- DeviceNode record of the CDI file format (specs/config.rs). The source
field named type is rendered here as ntype. -/
structure CDIDeviceNode where
  path : Str
  host_path : Option Str
  ntype : Option Str
  major : Option Int
  minor : Option Int
  file_mode : Option Nat
  permissions : Option Str
  uid : Option Nat
  gid : Option Nat
deriving DecidableEq

/-- Mount record of the CDI file format (specs/config.rs). The source field
named type is rendered here as mtype. -/
structure CDIMount where
  host_path : Str
  container_path : Str
  mtype : Option Str
  options : Option (List Str)
deriving DecidableEq

/-- Hook record of the CDI file format (specs/config.rs). -/
structure CDIHook where
  hook_name : Str
  path : Str
  args : Option (List Str)
  env : Option (List Str)
  timeout : Option Int
deriving DecidableEq

/-- IntelRdt record of the CDI file format (specs/config.rs). -/
structure CDIIntelRdt where
  clos_id : Option Str
  l3_cache_schema : Option Str
  mem_bw_schema : Option Str
  enable_cmt : Bool
  enable_mbm : Bool
deriving DecidableEq

/-- ContainerEdits record of the CDI file format (specs/config.rs). -/
structure CDIContainerEdits where
  env : Option (List Str)
  device_nodes : Option (List CDIDeviceNode)
  hooks : Option (List CDIHook)
  mounts : Option (List CDIMount)
  intel_rdt : Option CDIIntelRdt
  additional_gids : Option (List Nat)
deriving DecidableEq

/-- Device record of the CDI file format (specs/config.rs). The source field
named annotations (a BTreeMap) is rendered here as annots. -/
structure CDIDevice where
  name : Str
  annots : List (Str × Str)
  container_edits : CDIContainerEdits
deriving DecidableEq

/-- Top-level Spec record of the CDI file format (specs/config.rs): field
version is the cdiVersion string, annots renders the annotations map. -/
structure CDISpec where
  version : Str
  kind : Str
  annots : List (Str × Str)
  devices : List CDIDevice
  container_edits : Option CDIContainerEdits
deriving DecidableEq

/-! ## Edit model and merge engine (src/utils.rs, src/container_edits.rs) -/

/-- merge (utils.rs): when the first optional vector is present, extend it
with the second when that is present; when the first is absent, the result
is the second. -/
def merge {α : Type} (v1 v2 : Option (List α)) : Option (List α) :=
  let result := v1.map (fun vec =>
    match v2 with
    | some other => vec ++ other
    | none => vec)
  match result with
  | none => v2
  | some r => some r

/-- ContainerEdits wrapper over the raw record (container_edits.rs). -/
structure ContainerEdits where
  container_edits : CDIContainerEdits
deriving DecidableEq

/-- ContainerEdits::new (container_edits.rs): the all-absent edit set. -/
def ContainerEdits.new : ContainerEdits :=
  ⟨{ env := none, device_nodes := none, hooks := none, mounts := none,
     intel_rdt := none, additional_gids := none }⟩

/-- ContainerEdits::append (container_edits.rs): the five list fields are
combined with merge; the intel_rdt field is taken from the other edit set
when present there and is otherwise set to none. The source mutates self and
returns Ok; this model returns the new value. -/
def ContainerEdits.append (e o : ContainerEdits) : ContainerEdits :=
  let intel_rdt :=
    if o.container_edits.intel_rdt.isSome then o.container_edits.intel_rdt else none
  ⟨{ env := merge e.container_edits.env o.container_edits.env,
     device_nodes := merge e.container_edits.device_nodes o.container_edits.device_nodes,
     hooks := merge e.container_edits.hooks o.container_edits.hooks,
     mounts := merge e.container_edits.mounts o.container_edits.mounts,
     intel_rdt := intel_rdt,
     additional_gids := merge e.container_edits.additional_gids o.container_edits.additional_gids }⟩

/-! ## Version resolver (src/version.rs) -/

/-- Model of str::trim_start_matches applied to the character v. -/
def dropLeadingV : Str → Str
  | [] => []
  | c :: rest => if c = 'v' then dropLeadingV rest else c :: rest

/-- VersionWrapper::new (version.rs): normalize to a v-prefixed version
string. -/
def vnew (v : Str) : Str := 'v' :: dropLeadingV v

/-- Rank of the released CDI specification versions, giving their semantic
version order; models Version::parse followed by comparison, restricted to
the released-version literals that the version map compares. -/
def version_order (v : Str) : Nat :=
  if v = ("v0.1.0").toList then 1
  else if v = ("v0.2.0").toList then 2
  else if v = ("v0.3.0").toList then 3
  else if v = ("v0.4.0").toList then 4
  else if v = ("v0.5.0").toList then 5
  else if v = ("v0.6.0").toList then 6
  else if v = ("v0.7.0").toList then 7
  else 0

/-- VersionWrapper::is_greater_than (version.rs), via the release rank. -/
def is_greater_than (a b : Str) : Bool := version_order a > version_order b

/-- VersionWrapper::is_latest (version.rs): equality with the v-prefixed
current version 0.7.0 (specs/config.rs CURRENT_VERSION). -/
def is_latest (v : Str) : Bool := v = ("v0.7.0").toList

/-- requires_v040 (version.rs): some mount of the per-device edits or of the
global edits declares a non-empty type. The source unwraps the optional
global container_edits; an absent global edit set makes the unwrap panic,
modelled as none. -/
def requires_v040 (spec : CDISpec) : Option Bool :=
  match spec.container_edits with
  | none => none
  | some ge =>
    some ((spec.devices.map (fun d => d.container_edits) ++ [ge]).any (fun edits =>
      match edits.mounts with
      | some ms => ms.any (fun m =>
          match m.mtype with
          | some t => !(t = ([] : Str))
          | none => false)
      | none => false))

/-- requires_v050 (version.rs): some device name does not start with a
letter, or some device node (per-device or global edits) declares a
non-empty host path. -/
def requires_v050 (spec : CDISpec) : Bool :=
  if spec.devices.any (fun d => !(rust_is_alphabetic (d.name.headD (Char.ofNat 0)))) then
    true
  else
    (spec.devices.map (fun d => d.container_edits)
        ++ (spec.container_edits.map (fun ge => [ge])).getD []).any (fun edits =>
      match edits.device_nodes with
      | some ns => ns.any (fun node =>
          match node.host_path with
          | some p => !(p = ([] : Str))
          | none => false)
      | none => false)

/-- requires_v060 (version.rs): non-empty spec or device annotations, or a
qualified kind whose class contains a dot. -/
def requires_v060 (spec : CDISpec) : Bool :=
  if !(spec.annots = []) then true
  else if spec.devices.any (fun d => !(d.annots = [])) then true
  else
    let q := parse_qualifier spec.kind
    !(q.1 = []) && q.2.contains '.'

/-- requires_v070 (version.rs): the global edits (when present) or some
device edits declare intel_rdt or non-empty additional_gids. -/
def requires_v070 (spec : CDISpec) : Bool :=
  let hits := fun (edits : CDIContainerEdits) =>
    edits.intel_rdt.isSome ||
      (match edits.additional_gids with
       | some v => !(v = ([] : List Nat))
       | none => false)
  (match spec.container_edits with
   | some ge => hits ge
   | none => false) ||
  spec.devices.any (fun d => hits d.container_edits)

/-- Entries of the VALID_SPEC_VERSIONS map (version.rs) in BTreeMap key
order, with each requires predicate lifted to the partial (panic-aware)
form. -/
def valid_spec_version_entries : List (Str × Option (CDISpec → Option Bool)) :=
  [(("v0.1.0").toList, none),
   (("v0.2.0").toList, none),
   (("v0.3.0").toList, none),
   (("v0.4.0").toList, some requires_v040),
   (("v0.5.0").toList, some (fun s => some (requires_v050 s))),
   (("v0.6.0").toList, some (fun s => some (requires_v060 s))),
   (("v0.7.0").toList, some (fun s => some (requires_v070 s)))]

/-- Loop body of VersionMap::required_version (version.rs): walk the map
entries in ascending key order, raising the minimum when a requires
predicate fires, stopping early at the latest version; a panicking predicate
aborts the whole computation (none). -/
def required_version_go (spec : CDISpec) :
    List (Str × Option (CDISpec → Option Bool)) → Str → Option Str
  | [], min_version => some min_version
  | (v, f?) :: rest, min_version =>
    match f? with
    | none => required_version_go spec rest min_version
    | some f =>
      match f spec with
      | none => none
      | some b =>
        let vw := vnew v
        let min2 := if b && is_greater_than vw min_version then vw else min_version
        if is_latest min2 then some min2 else required_version_go spec rest min2

/-- VersionMap::required_version (version.rs): start from the earliest
supported version v0.3.0 and accumulate over the map entries. -/
def required_version (spec : CDISpec) : Option Str :=
  required_version_go spec valid_spec_version_entries (vnew (("v0.3.0").toList))

/-- minimum_required_version (version.rs): required_version of the
VALID_SPEC_VERSIONS map (the Result wrapper in the source is always Ok). -/
def minimum_required_version (spec : CDISpec) : Option Str :=
  required_version spec

/-- VersionMap::is_valid_version (version.rs): membership of the normalized
version among the released-version keys. -/
def is_valid_version (spec_version : Str) : Bool :=
  (valid_spec_version_entries.map (fun kv => kv.1)).contains ('v' :: dropLeadingV spec_version)

/-- validate_version (spec.rs): reject versions outside the supported map,
then reject declared versions below the computed minimum; a panic inside the
minimum computation is modelled as none. -/
def validate_version (cdi_spec : CDISpec) : Option (Except Str Unit) :=
  if !(is_valid_version cdi_spec.version) then
    some (.error (("invalid version ").toList ++ cdi_spec.version))
  else
    match minimum_required_version cdi_spec with
    | none => none
    | some min_version =>
      if is_greater_than min_version (vnew cdi_spec.version) then
        some (.error (("the spec version must be at least v").toList
          ++ dropLeadingV min_version))
      else
        some (.ok ())

/-! ## Specs, devices and the cache (src/spec.rs, src/device.rs, src/cache.rs)

The Rust Spec struct stores its devices in a BTreeMap whose Device values
each carry a clone of the owning Spec taken before the devices map is
filled (new_device runs inside Spec::validate, when the devices field of
self is still the default empty map). The back-reference is therefore a
Spec value with no devices, modelled by SpecData; the full Spec couples a
SpecData with the devices map (association list in ascending key order, as
produced by the BTreeMap). -/

/-- Fields of the cache-level Spec other than the devices map (spec.rs,
struct Spec): raw record, vendor, class (rendered cls), cleaned path,
directory priority. -/
structure SpecData where
  cdi_spec : CDISpec
  vendor : Str
  cls : Str
  path : Str
  priority : Int
deriving DecidableEq

/-- Device of a Spec (device.rs, struct Device): raw device record plus the
back-reference to the owning Spec (a devices-free clone, see above). -/
structure Device where
  cdi_device : CDIDevice
  cdi_spec : SpecData
deriving DecidableEq

/-- Device::get_qualified_name (device.rs): vendor/class of the owning Spec
with the device name. -/
def Device.get_qualified_name (d : Device) : Str :=
  qualified_name d.cdi_spec.vendor d.cdi_spec.cls d.cdi_device.name

/-- Device::edits (device.rs): the device-scoped container edits. -/
def Device.edits (d : Device) : ContainerEdits :=
  ⟨d.cdi_device.container_edits⟩

/-- Spec::edits (spec.rs): the optional global container edits of the raw
record, wrapped. -/
def SpecData.edits (s : SpecData) : Option ContainerEdits :=
  s.cdi_spec.container_edits.map (fun ce => ⟨ce⟩)

/-- Cache-level Spec (spec.rs, struct Spec): SpecData plus the validated
devices map. -/
structure Spec where
  core : SpecData
  devices : List (Str × Device)
deriving DecidableEq

/-- SpecError (spec_dirs.rs): an error wrapping a message string. -/
structure SpecErr where
  message : Str
deriving DecidableEq

/-- Display of SpecError (spec_dirs.rs impl Display). -/
def SpecErr.display (e : SpecErr) : Str :=
  ("spec error message ").toList ++ e.message

/-- Display of ConflictError (cache.rs impl Display): names the device and
both spec file paths. -/
def conflictDisplay (name dev_path old_path : Str) : Str :=
  ("conflicting device ").toList ++ name ++ (" (specs ").toList ++ dev_path
    ++ (", ").toList ++ old_path ++ (")").toList

/-- convert_errors (spec_dirs.rs): re-wrap every recorded error string into
a fresh SpecError built from its display output. -/
def convert_errors (m : List (Str × List SpecErr)) : List (Str × List SpecErr) :=
  m.map (fun kv => (kv.1, kv.2.map (fun e => SpecErr.mk e.display)))

/-- Cache state (cache.rs, struct Cache). -/
structure Cache where
  spec_dirs : List Str
  specs : List (Str × List Spec)
  devices : List (Str × Device)
  errors : List (Str × List SpecErr)
  dir_errors : List (Str × SpecErr)
  auto_refresh : Bool
deriving DecidableEq

/-- Mutable state threaded through Cache::refresh (cache.rs): the specs map
of self (mutated by scan_spec_fn), the freshly built devices map, the
conflict name set, and the per-path error lists. -/
structure RefreshState where
  selfSpecs : List (Str × List Spec)
  devices : List (Str × Device)
  conflicts : List Str
  spec_errors : List (Str × List SpecErr)
deriving DecidableEq

/-- Append one error to the list recorded under a path, modelling
spec_errors.entry(path).or_default().push(..) (cache.rs collect_error). -/
def pushErr (path : Str) (e : SpecErr) (m : List (Str × List SpecErr)) :
    List (Str × List SpecErr) :=
  match lookupA path m with
  | some l => insertA path (l ++ [e]) m
  | none => insertA path [e] m

/-- collect_error (cache.rs): push a SpecError with the message under every
given path, in order. -/
def collect_error (msg : Str) (paths : List Str) (m : List (Str × List SpecErr)) :
    List (Str × List SpecErr) :=
  paths.foldl (fun acc p => pushErr p (SpecErr.mk msg) acc) m

/-- resolve_conflict (cache.rs): compare the priorities of the new device
and the existing entry. Strictly greater priority on the new device yields
false (caller inserts, replacing the old entry); equal priorities record a
ConflictError under both paths and mark the name conflicted, yielding true
(caller skips); strictly lower priority yields true (caller skips). -/
def resolve_conflict (name : Str) (dev old : Device) (st : RefreshState) :
    Bool × RefreshState :=
  let dev_prio := dev.cdi_spec.priority
  let old_prio := old.cdi_spec.priority
  if dev_prio > old_prio then (false, st)
  else if dev_prio = old_prio then
    let dev_path := dev.cdi_spec.path
    let old_path := old.cdi_spec.path
    let msg := conflictDisplay name dev_path old_path
    (true,
     { st with
       spec_errors := collect_error msg [dev_path, old_path] st.spec_errors,
       conflicts :=
         if st.conflicts.contains name then st.conflicts else st.conflicts ++ [name] })
  else (true, st)

/-- Per-device step of scan_spec_fn (cache.rs): look the qualified name up
in the freshly built devices map, resolve a conflict when present, and
insert the device unless resolution said to skip it. -/
def scan_device (st : RefreshState) (dev : Device) : RefreshState :=
  let qualified := dev.get_qualified_name
  match lookupA qualified st.devices with
  | some other =>
    let r := resolve_conflict qualified dev other st
    if r.1 then r.2
    else { r.2 with devices := insertA qualified dev r.2.devices }
  | none => { st with devices := insertA qualified dev st.devices }

/-- Push a Spec onto the vendor entry of a specs map, modelling
self.specs.entry(vendor).or_default().push(s) (cache.rs scan_spec_fn). -/
def specsEntryPush (vendor : Str) (s : Spec) (m : List (Str × List Spec)) :
    List (Str × List Spec) :=
  match lookupA vendor m with
  | some l => insertA vendor (l ++ [s]) m
  | none => insertA vendor [s] m

/-- scan_spec_fn (cache.rs): index the Spec under its vendor in the specs
map of self, then run the device step over the devices of the Spec in map
order. -/
def scan_spec_fn (st : RefreshState) (s : Spec) : RefreshState :=
  let vendor := s.core.vendor
  let st1 := { st with selfSpecs := specsEntryPush vendor s st.selfSpecs }
  (s.devices.map (fun kv => kv.2)).foldl scan_device st1

/-- Cache::refresh (cache.rs). The directory scan itself touches the
filesystem; its outcome is passed in as scan_result (the value of
scan_spec_dirs over the configured directories). A scan error propagates
before any state change. Otherwise the specs are folded through
scan_spec_fn; the conflicted names are then removed from self.devices (the
pre-refresh map, exactly as in the source, where that map is overwritten
right afterwards); finally the local specs map (never written, hence empty),
the freshly built devices map and the converted errors are installed, and an
aggregate error is returned when any error string was recorded. -/
def Cache.refresh (c : Cache) (scan_result : Except Str (List Spec)) :
    Cache × Except Str Unit :=
  match scan_result with
  | .error e => (c, .error e)
  | .ok scaned_specs =>
    let specs_local : List (Str × List Spec) := []
    let st0 : RefreshState :=
      { selfSpecs := c.specs, devices := [], conflicts := [], spec_errors := [] }
    let st := scaned_specs.foldl scan_spec_fn st0
    let devices_after_removal := st.conflicts.foldl (fun m n => eraseA n m) c.devices
    let c1 := { c with specs := st.selfSpecs, devices := devices_after_removal }
    let c2 := { c1 with
                specs := specs_local,
                devices := st.devices,
                errors := convert_errors st.spec_errors }
    let errs := (st.spec_errors.map (fun kv => kv.2)).flatten.map SpecErr.display
    if errs = [] then (c2, .ok ()) else (c2, .error (joinSep ((", ").toList) errs))

/-- Cache::refresh_if_required (cache.rs): refresh when forced or when
auto-refresh is enabled, reporting whether a refresh ran. -/
def Cache.refresh_if_required (c : Cache) (scan_result : Except Str (List Spec))
    (force : Bool) : Cache × Except Str Bool :=
  if force || c.auto_refresh then
    match c.refresh scan_result with
    | (c2, .ok _) => (c2, .ok true)
    | (c2, .error e) => (c2, .error e)
  else (c, .ok false)

/-- Cache::get_vendor_specs (cache.rs): after refresh_if_required(false),
the list of Specs recorded under the vendor, defaulting to the empty
list. -/
def Cache.get_vendor_specs (c : Cache) (scan_result : Except Str (List Spec))
    (vendor : Str) : Cache × List Spec :=
  let r := c.refresh_if_required scan_result false
  (r.1, (lookupA vendor r.1.specs).getD [])

/-- Cache::list_vendors (cache.rs): after refresh_if_required(false), the
keys of the specs map, sorted. -/
def Cache.list_vendors (c : Cache) (scan_result : Except Str (List Spec)) :
    Cache × List Str :=
  let r := c.refresh_if_required scan_result false
  (r.1, (r.1.specs.map (fun kv => kv.1)).mergeSort (fun a b => !(b < a)))

/-! ## Directory scanner (src/spec_dirs.rs) -/

/-- One file met while traversing a spec directory. The filesystem is
external: is_candidate records the outcome of the candidate test
(!path.is_dir() && is_cdi_spec(path), an extension check on the real file),
and load models read_spec(path, priority) as a function of the priority the
scanner passes in. -/
structure ScanEntry where
  path : Str
  is_candidate : Bool
  load : Int → Except Str Spec

/-- Directory loop of scan_spec_dirs (spec_dirs.rs): process the files of
one directory in traversal order, loading every candidate at the given
priority and aborting on the first load failure, wrapped in SpecError
display form as the source does when it returns the error. -/
def scan_dir (priority : Int) (acc : List Spec) : List ScanEntry → Except Str (List Spec)
  | [] => .ok acc
  | e :: rest =>
    if e.is_candidate then
      match e.load priority with
      | .ok sp => scan_dir priority (acc ++ [sp]) rest
      | .error err =>
        .error (SpecErr.display (SpecErr.mk (SpecErr.display (SpecErr.mk err))))
    else scan_dir priority acc rest

/-- Outer loop of scan_spec_dirs (spec_dirs.rs): enumerate the directories,
the index being the priority; a missing or non-directory entry (none) is
skipped but still consumes its index. -/
def scan_spec_dirs_go (priority : Int) (acc : List Spec) :
    List (Option (List ScanEntry)) → Except Str (List Spec)
  | [] => .ok acc
  | d :: rest =>
    match d with
    | none => scan_spec_dirs_go (priority + 1) acc rest
    | some entries =>
      match scan_dir priority acc entries with
      | .ok acc2 => scan_spec_dirs_go (priority + 1) acc2 rest
      | .error e => .error e

/-- scan_spec_dirs (spec_dirs.rs): scan the given directories, collecting
the loaded Specs, aborting the whole scan on the first load failure. -/
def scan_spec_dirs (dirs : List (Option (List ScanEntry))) : Except Str (List Spec) :=
  scan_spec_dirs_go 0 [] dirs

/-- Whether some candidate file of some directory fails to load at the
priority of its directory (the abort condition of the scan). -/
def hasFailingCandidate_go (priority : Int) : List (Option (List ScanEntry)) → Bool
  | [] => false
  | d :: rest =>
    (match d with
     | none => false
     | some entries =>
       entries.any (fun e =>
         e.is_candidate &&
           (match e.load priority with
            | .ok _ => false
            | .error _ => true))) ||
    hasFailingCandidate_go (priority + 1) rest

/-- Whether some candidate file in the directory list fails to load. -/
def hasFailingCandidate (dirs : List (Option (List ScanEntry))) : Bool :=
  hasFailingCandidate_go 0 dirs

/-! ## Device injection (src/cache.rs, Cache::inject_devices) -/

/-- Loop of Cache::inject_devices (cache.rs): walk the requested names in
order; a resolvable name contributes edits (the global edits of its Spec on
the first appearance of that Spec, by HashSet insertion on Spec identity;
when the Spec has no global edits the source continues, skipping the device
edits of that first device); an unresolved name is appended to the
unresolved list. State: (accumulated edits, seen Specs, unresolved). -/
def injectLoop (c : Cache) :
    List Str → ContainerEdits × List SpecData × List Str →
      ContainerEdits × List SpecData × List Str
  | [], st => st
  | device :: rest, (edits, seen, unresolved) =>
    match lookupA device c.devices with
    | some dev =>
      let spec := dev.cdi_spec
      if seen.contains spec then
        injectLoop c rest (edits.append dev.edits, seen, unresolved)
      else
        let seen2 := seen ++ [spec]
        match spec.edits with
        | some ce => injectLoop c rest ((edits.append ce).append dev.edits, seen2, unresolved)
        | none => injectLoop c rest (edits, seen2, unresolved)
    | none => injectLoop c rest (edits, seen, unresolved ++ [device])

/-- Cache::inject_devices (cache.rs). The OCI runtime spec is an external
opaque object of type σ; apply_fn models ContainerEdits::apply on it, whose
source mutates the OCI spec only in its final copy-back block, after every
fallible step, so an application error leaves the object unchanged (hence
the Except result carries the new object only on success). A missing OCI
spec fails at once; otherwise refresh_if_required(false) runs, the loop
accumulates edits and unresolved names, any unresolved name fails the call
before anything is applied, and otherwise the accumulated edits are applied
once. Returns the cache after the optional auto-refresh, the final OCI spec
state, and the call result. -/
def Cache.inject_devices {σ : Type} (apply_fn : ContainerEdits → σ → Except Str σ)
    (c : Cache) (scan_result : Except Str (List Spec)) (oci_spec : Option σ)
    (devices : List Str) : Cache × Option σ × Except Str (List Str) :=
  match oci_spec with
  | none => (c, none, .error (("can\x27t inject devices, OCI Spec is empty").toList))
  | some sp =>
    let c2 := (c.refresh_if_required scan_result false).1
    let lp := injectLoop c2 devices (ContainerEdits.new, [], [])
    let unresolved := lp.2.2
    if unresolved = [] then
      match apply_fn lp.1 sp with
      | .error err =>
        (c2, some sp, .error (("failed to inject devices: ").toList ++ err))
      | .ok sp2 => (c2, some sp2, .ok [])
    else
      (c2, some sp,
       .error (("unresolvable CDI devices ").toList ++ joinSep ((", ").toList) unresolved))

/-! ## Shared concrete values and helper lemmas -/

/-- The all-absent raw edit record. -/
def ceEmpty : CDIContainerEdits :=
  { env := none, device_nodes := none, hooks := none, mounts := none,
    intel_rdt := none, additional_gids := none }

/-- A sample IntelRdt record. -/
def rdtExample : CDIIntelRdt :=
  { clos_id := some (("clos").toList), l3_cache_schema := none, mem_bw_schema := none,
    enable_cmt := false, enable_mbm := false }

/-- Edits carrying only an IntelRdt record. -/
def ceWithRdt : ContainerEdits := ⟨{ ceEmpty with intel_rdt := some rdtExample }⟩

/-- Modelled from the spec: for a list-typed field, append concatenates with
the base entries first whenever either side is present, and keeps the field
absent when both sides are absent. -/
def spec_concat {α : Type} : Option (List α) → Option (List α) → Option (List α)
  | none, none => none
  | x, y => some (x.getD [] ++ y.getD [])

theorem merge_eq_spec_concat {α : Type} (x y : Option (List α)) :
    merge x y = spec_concat x y := by
  cases x <;> cases y <;> simp [merge, spec_concat]

/-! ## C6: IntelRdt handling of ContainerEdits::append -/

/-- C6: the claim states that append keeps the IntelRdt of the base when the
other edit set has none. The code instead sets the field to none in that
case (the else branch of the presence test yields None rather than the base
value), dropping the IntelRdt of the base; the replace-on-presence half of
the claim does hold. Evaluated at a concrete input pair. -/
theorem append_drops_base_intel_rdt :
    (ceWithRdt.append ContainerEdits.new).container_edits.intel_rdt = none
    ∧ ceWithRdt.container_edits.intel_rdt = some rdtExample
    ∧ (ContainerEdits.new.append ceWithRdt).container_edits.intel_rdt = some rdtExample := by
  refine ⟨?_, rfl, rfl⟩
  rfl

/-! ## C7: list fields of ContainerEdits::append concatenate -/

/-- C7: for every pair of edit sets and each of the five list-typed fields
(env, device nodes, mounts, hooks, additional GIDs), append produces the
concatenation with the base entries first whenever either side is present,
and an absent field on both sides stays absent (the spec_concat shape). -/
theorem append_list_fields_concat (b o : ContainerEdits) :
    (b.append o).container_edits.env
        = spec_concat b.container_edits.env o.container_edits.env
    ∧ (b.append o).container_edits.device_nodes
        = spec_concat b.container_edits.device_nodes o.container_edits.device_nodes
    ∧ (b.append o).container_edits.mounts
        = spec_concat b.container_edits.mounts o.container_edits.mounts
    ∧ (b.append o).container_edits.hooks
        = spec_concat b.container_edits.hooks o.container_edits.hooks
    ∧ (b.append o).container_edits.additional_gids
        = spec_concat b.container_edits.additional_gids o.container_edits.additional_gids := by
  refine ⟨?_, ?_, ?_, ?_, ?_⟩ <;> simp [ContainerEdits.append, merge_eq_spec_concat]

/-! ## C10: totality of the version requirement predicates -/

/-- A well-formed raw spec record that declares no global container edits
(the containerEdits key of a CDI file is optional). -/
def specNoGlobalEdits : CDISpec :=
  { version := ("0.3.0").toList, kind := ("vendor.com/device").toList,
    annots := [], devices := [], container_edits := none }

/-- C10: the claim states that computing the minimum required version is
total, in particular that the v0.4.0 mount-type predicate evaluates without
panicking on a record whose optional global container-edits field is absent.
The code unwraps that optional field inside requires_v040, so the predicate
panics (modelled none) on such a record, the panic propagates through
required_version, and validate_version aborts instead of reaching a Result,
even though the declared version itself is valid. -/
theorem requires_v040_panics_without_global_edits :
    requires_v040 specNoGlobalEdits = none
    ∧ required_version specNoGlobalEdits = none
    ∧ validate_version specNoGlobalEdits = none
    ∧ is_valid_version specNoGlobalEdits.version = true := by
  exact ⟨rfl, by rfl, by rfl, by rfl⟩

/-! ## Splitting lemmas for the parser -/

theorem splitOnChar_ne_nil (sep : Char) (s : Str) : splitOnChar sep s ≠ [] := by
  induction s with
  | nil => simp [splitOnChar]
  | cons c rest ih =>
    by_cases hc : c = sep
    · simp [splitOnChar, hc]
    · simp only [splitOnChar, if_neg hc]
      rcases h : splitOnChar sep rest with _ | ⟨r, rs⟩ <;> simp

theorem splitOnChar_not_mem (sep : Char) (s : Str) (h : sep ∉ s) :
    splitOnChar sep s = [s] := by
  induction s with
  | nil => rfl
  | cons c rest ih =>
    simp only [List.mem_cons, not_or] at h
    obtain ⟨h1, h2⟩ := h
    have hc : ¬ c = sep := fun hh => h1 hh.symm
    simp only [splitOnChar, if_neg hc, ih h2]

theorem splitOnChar_append (sep : Char) (pre suf : Str) (h : sep ∉ pre) :
    splitOnChar sep (pre ++ sep :: suf) = pre :: splitOnChar sep suf := by
  induction pre with
  | nil => simp [splitOnChar]
  | cons c rest ih =>
    simp only [List.mem_cons, not_or] at h
    obtain ⟨h1, h2⟩ := h
    have hc : ¬ c = sep := fun hh => h1 hh.symm
    simp only [List.cons_append, splitOnChar, if_neg hc, List.append_eq, ih h2]

theorem splitOnChar_length (sep : Char) (s : Str) :
    (splitOnChar sep s).length = s.count sep + 1 := by
  induction s with
  | nil => simp [splitOnChar]
  | cons c rest ih =>
    by_cases hc : c = sep
    · subst hc
      simp [splitOnChar, List.count_cons, ih]
    · have hcount : (c :: rest).count sep = rest.count sep := by
        simp [List.count_cons, Ne.symm hc]
      simp only [splitOnChar, if_neg hc]
      rcases h : splitOnChar sep rest with _ | ⟨r, rs⟩
      · exact absurd h (splitOnChar_ne_nil sep rest)
      · rw [h] at ih
        simp only [List.length_cons] at ih ⊢
        omega

/-! ## Structural behavior of parse_device on built names -/

theorem parse_device_build (v c n : Str) (hv : v ≠ []) (hc : c ≠ []) (hn : n ≠ [])
    (hveq : '=' ∉ v) (hceq : '=' ∉ c) (hneq : '=' ∉ n)
    (hvsl : '/' ∉ v) (hcsl : '/' ∉ c) :
    parse_device (qualified_name v c n) = (v, c, n) := by
  obtain ⟨a, v2, rfl⟩ : ∃ a v2, v = a :: v2 := by
    cases v with
    | nil => exact absurd rfl hv
    | cons a v2 => exact ⟨a, v2, rfl⟩
  have ha : ¬ a = '/' := by
    intro hh
    exact hvsl (hh ▸ List.mem_cons_self a v2)
  have hguard : ¬ (qualified_name (a :: v2) c n = []
      ∨ (qualified_name (a :: v2) c n).head? = some '/') := by
    simp only [qualified_name, List.cons_append, List.head?_cons, not_or]
    refine ⟨by simp, ?_⟩
    simp [ha]
  have h1 : '=' ∉ (a :: v2) ++ '/' :: c := by
    intro hm
    rcases List.mem_append.1 hm with hm1 | hm2
    · exact hveq hm1
    · rcases List.mem_cons.1 hm2 with hm3 | hm4
      · exact absurd hm3 (by decide)
      · exact hceq hm4
  have hsplit : splitOnChar '=' (qualified_name (a :: v2) c n)
      = [(a :: v2) ++ '/' :: c, n] := by
    have hshape : qualified_name (a :: v2) c n = ((a :: v2) ++ '/' :: c) ++ '=' :: n := by
      simp [qualified_name]
    rw [hshape, splitOnChar_append _ _ _ h1, splitOnChar_not_mem _ _ hneq]
  have hq : parse_qualifier ((a :: v2) ++ '/' :: c) = (a :: v2, c) := by
    unfold parse_qualifier
    rw [splitOnChar_append _ _ _ hvsl, splitOnChar_not_mem _ _ hcsl]
    simp [hc]
  unfold parse_device
  rw [if_neg hguard, hsplit]
  simp only [hq]
  simp [hn, hc]

/-! ## C8: how parse_device splits on the equals sign -/

/-- C8 (counterexample): the claim states that parse splits at the last
equals sign, so that a text with more than one equals sign is still split
(here a/b=c=d would give name d). The code instead requires the split to
produce exactly two parts, so such a text is returned whole as an
unqualified name. -/
theorem parse_device_not_last_equals_split :
    parse_device (("a/b=c=d").toList) = ([], [], ("a/b=c=d").toList)
    ∧ parse_device (("a/b=c=d").toList)
        ≠ ((("a").toList), (("b=c").toList), (("d").toList)) := by
  constructor <;> decide

/-- C8 (amended): parse_device determines the name component by splitting at
the equals sign only when the text contains exactly one equals sign; a text
with zero or several equals signs is returned whole as the name with empty
vendor and class. When the text has the shape left=name with non-empty
sides, no further equals sign, and the left side consists of a slash between
a non-empty slash-free vendor and class, the split yields exactly those
components. -/
theorem parse_device_amended :
    (∀ s : Str, s.count '=' ≠ 1 → parse_device s = ([], [], s))
    ∧ (∀ v c n : Str, v ≠ [] → c ≠ [] → n ≠ [] →
        '=' ∉ v → '=' ∉ c → '=' ∉ n → '/' ∉ v → '/' ∉ c →
        parse_device (v ++ '/' :: c ++ '=' :: n) = (v, c, n)) := by
  constructor
  · intro s hcount
    by_cases h0 : s = [] ∨ s.head? = some '/'
    · unfold parse_device
      rw [if_pos h0]
    · unfold parse_device
      rw [if_neg h0]
      have hlen := splitOnChar_length '=' s
      rcases hsp : splitOnChar '=' s with _ | ⟨p0, _ | ⟨p1, _ | ⟨p2, rest⟩⟩⟩
      · exact absurd hsp (splitOnChar_ne_nil '=' s)
      · rfl
      · rw [hsp] at hlen
        simp only [List.length_cons, List.length_nil] at hlen
        exact absurd (by omega) hcount
      · rfl
  · intro v c n hv hc hn hveq hceq hneq hvsl hcsl
    exact parse_device_build v c n hv hc hn hveq hceq hneq hvsl hcsl

/-- C8 (witness): the amended theorem applied to the concrete unqualified
text a=b=c (two equals signs) and to the concrete built name x/y=0. -/
theorem parse_device_amended_witness :
    parse_device (("a=b=c").toList) = ([], [], ("a=b=c").toList)
    ∧ parse_device ((("x").toList) ++ '/' :: (("y").toList) ++ '=' :: (("0").toList))
        = ((("x").toList), (("y").toList), (("0").toList)) :=
  ⟨parse_device_amended.1 (("a=b=c").toList) (by decide),
   parse_device_amended.2 (("x").toList) (("y").toList) (("0").toList)
     (by decide) (by decide) (by decide) (by decide) (by decide) (by decide)
     (by decide) (by decide)⟩

/-! ## C9: build/parse round-trip -/

/-- Character class of vendor and class names (claim and validators):
alphanumeric or dash, underscore, dot. -/
def vc_char_ok (c : Char) : Bool :=
  rust_is_alphanumeric c || c == '-' || c == '_' || c == '.'

/-- Character class of device names (claim and validators): alphanumeric or
dash, underscore, dot, colon. -/
def dev_char_ok (c : Char) : Bool :=
  rust_is_alphanumeric c || c == '-' || c == '_' || c == '.' || c == ':'

theorem find?_invalid_vc_eq_none (s : Str) (h : ∀ ch ∈ s, vc_char_ok ch = true) :
    s.find? (fun c =>
      !(rust_is_alphanumeric c) && !(c == '-') && !(c == '_') && !(c == '.')) = none := by
  rw [List.find?_eq_none]
  intro x hx
  have h2 := h x hx
  simp only [vc_char_ok, Bool.or_eq_true, beq_iff_eq] at h2
  simp only [Bool.and_eq_true, Bool.not_eq_true', beq_eq_false_iff_ne, ne_eq, not_and]
  rcases h2 with ((h2 | h2) | h2) | h2 <;> simp [h2]

theorem find?_invalid_dev_eq_none (s : Str) (h : ∀ ch ∈ s, dev_char_ok ch = true) :
    s.find? (fun c =>
      !(rust_is_alphanumeric c) && !(c == '-') && !(c == '_') && !(c == '.')
        && !(c == ':')) = none := by
  rw [List.find?_eq_none]
  intro x hx
  have h2 := h x hx
  simp only [dev_char_ok, Bool.or_eq_true, beq_iff_eq] at h2
  simp only [Bool.and_eq_true, Bool.not_eq_true', beq_eq_false_iff_ne, ne_eq, not_and]
  rcases h2 with (((h2 | h2) | h2) | h2) | h2 <;> simp [h2]

theorem validate_vc_ok (s : Str) (h1 : s ≠ [])
    (h2 : rust_is_alphabetic (s.headD (Char.ofNat 0)) = true)
    (h3 : ∀ ch ∈ s, vc_char_ok ch = true) :
    validate_vendor_or_class_name s = .ok () := by
  have hcond : ¬ ((!(rust_is_alphabetic (s.headD (Char.ofNat 0)))) = true) := by
    rw [h2]
    decide
  unfold validate_vendor_or_class_name
  rw [if_neg h1, if_neg hcond, find?_invalid_vc_eq_none s h3]

theorem validate_dev_ok (s : Str) (h1 : s ≠ [])
    (h3 : ∀ ch ∈ s, dev_char_ok ch = true) :
    validate_device_name s = .ok () := by
  unfold validate_device_name
  rw [if_neg h1, find?_invalid_dev_eq_none s h3]

/-- C9: for every triple of a vendor and class that are non-empty, start
with a letter and consist of characters alphanumeric or dash, underscore,
dot, and a non-empty name of characters alphanumeric or dash, underscore,
dot, colon, parsing the built string vendor/class=name succeeds and returns
exactly that triple. -/
theorem parse_build_roundtrip (v c n : Str)
    (hv1 : v ≠ []) (hv2 : rust_is_alphabetic (v.headD (Char.ofNat 0)) = true)
    (hv3 : ∀ ch ∈ v, vc_char_ok ch = true)
    (hc1 : c ≠ []) (hc2 : rust_is_alphabetic (c.headD (Char.ofNat 0)) = true)
    (hc3 : ∀ ch ∈ c, vc_char_ok ch = true)
    (hn1 : n ≠ []) (hn3 : ∀ ch ∈ n, dev_char_ok ch = true) :
    parse_qualified_name (qualified_name v c n) = .ok (v, c, n) := by
  have hveq : '=' ∉ v := fun hm => absurd (hv3 _ hm) (by decide)
  have hvsl : '/' ∉ v := fun hm => absurd (hv3 _ hm) (by decide)
  have hceq : '=' ∉ c := fun hm => absurd (hc3 _ hm) (by decide)
  have hcsl : '/' ∉ c := fun hm => absurd (hc3 _ hm) (by decide)
  have hneq : '=' ∉ n := fun hm => absurd (hn3 _ hm) (by decide)
  have hpd := parse_device_build v c n hv1 hc1 hn1 hveq hceq hneq hvsl hcsl
  have hvv := validate_vc_ok v hv1 hv2 hv3
  have hvc := validate_vc_ok c hc1 hc2 hc3
  have hvd := validate_dev_ok n hn1 hn3
  unfold parse_qualified_name
  simp only [hpd]
  rw [if_neg hv1, if_neg hc1, if_neg hn1]
  unfold validate_vendor_name validate_class_name
  rw [hvv, hvc, hvd]

/-- C9 (witness): the round-trip theorem applied to the concrete triple
nvidia.com, gpu, 0. -/
theorem parse_build_roundtrip_witness :
    parse_qualified_name
        (qualified_name (("nvidia.com").toList) (("gpu").toList) (("0").toList))
      = .ok ((("nvidia.com").toList), (("gpu").toList), (("0").toList)) :=
  parse_build_roundtrip (("nvidia.com").toList) (("gpu").toList) (("0").toList)
    (by decide) (by decide) (by decide) (by decide) (by decide) (by decide)
    (by decide) (by decide)

/-! ## Helper lemmas for refresh and the accessors -/

theorem refresh_error_eq (c : Cache) (e : Str) :
    c.refresh (.error e) = (c, .error e) := rfl

theorem refresh_ok_specs_nil (c : Cache) (scanned : List Spec) :
    ((c.refresh (.ok scanned)).1).specs = [] := by
  simp only [Cache.refresh]
  split <;> rfl

theorem refresh_if_required_fst (c : Cache) (scan : Except Str (List Spec))
    (force : Bool) :
    (c.refresh_if_required scan force).1
      = if force || c.auto_refresh then (c.refresh scan).1 else c := by
  unfold Cache.refresh_if_required
  by_cases hf : (force || c.auto_refresh) = true
  · rw [if_pos hf, if_pos hf]
    rcases h : c.refresh scan with ⟨c2, res⟩
    cases res <;> simp [h]
  · rw [if_neg hf, if_neg hf]

theorem lookupA_nil {α : Type} (k : Str) : lookupA k ([] : List (Str × α)) = none := rfl

/-! ## C2: the vendor-to-spec map after a refresh -/

/-- C2: the claim states that after every refresh the vendor-to-spec map of
the Cache is the freshly built index of that scan, containing every
successfully loaded Spec under its vendor. The code pushes the scanned
Specs into the pre-refresh map of self but then installs the local specs
map declared at the top of refresh, which is never written: the installed
vendor-to-spec map is empty after every successful refresh, whatever was
scanned, and get_vendor_specs consequently returns nothing for any
vendor. -/
theorem refresh_wipes_vendor_spec_map :
    (∀ (c : Cache) (scanned : List Spec), ((c.refresh (.ok scanned)).1).specs = [])
    ∧ (∀ (c : Cache) (scanned : List Spec) (scan2 : Except Str (List Spec)) (vendor : Str),
        (((c.refresh (.ok scanned)).1).get_vendor_specs scan2 vendor).2 = []) := by
  refine ⟨refresh_ok_specs_nil, ?_⟩
  intro c scanned scan2 vendor
  have hspecs := refresh_ok_specs_nil c scanned
  unfold Cache.get_vendor_specs
  dsimp only
  rw [refresh_if_required_fst]
  by_cases har : (false || ((c.refresh (.ok scanned)).1).auto_refresh) = true
  · rw [if_pos har]
    cases scan2 with
    | error e =>
      rw [refresh_error_eq]
      simp [hspecs, lookupA_nil]
    | ok l =>
      have h2 := refresh_ok_specs_nil ((c.refresh (.ok scanned)).1) l
      simp [h2, lookupA_nil]
  · rw [if_neg har]
    simp [hspecs, lookupA_nil]

/-! ## C1: conflict resolution between specs claiming the same device -/

theorem refresh_ok_eval (c : Cache) (scanned : List Spec) :
    c.refresh (.ok scanned)
      = (let st := scanned.foldl scan_spec_fn
             { selfSpecs := c.specs, devices := [], conflicts := [], spec_errors := [] }
         let errs := (st.spec_errors.map (fun kv => kv.2)).flatten.map SpecErr.display
         ({ c with specs := [], devices := st.devices,
                   errors := convert_errors st.spec_errors },
          if errs = [] then .ok () else .error (joinSep ((", ").toList) errs))) := by
  simp only [Cache.refresh]
  split <;> rfl

/-- C1 (amended): when two scanned specs each declare one device with the
same fully qualified name, refresh behaves as follows. Equal priorities: a
conflict error naming both file paths is recorded under both paths and the
refresh returns an aggregate error, but the device stays in the installed
index, resolved to the first-scanned spec (the conflicted names are removed
from the pre-refresh device map, which is then discarded, so the removal has
no effect). Different priorities: the device of the spec with the
numerically higher priority is the one present and no error is recorded. -/
theorem refresh_conflict_amended (c : Cache) (s1 s2 : Spec) (n1 n2 : Str) (d1 d2 : Device)
    (h1 : s1.devices = [(n1, d1)]) (h2 : s2.devices = [(n2, d2)])
    (hq : d2.get_qualified_name = d1.get_qualified_name)
    (hpath : d1.cdi_spec.path ≠ d2.cdi_spec.path) :
    (d1.cdi_spec.priority = d2.cdi_spec.priority →
      lookupA d1.get_qualified_name ((c.refresh (.ok [s1, s2])).1).devices = some d1
      ∧ ((c.refresh (.ok [s1, s2])).1).errors
          = [(d2.cdi_spec.path,
              [SpecErr.mk (SpecErr.display (SpecErr.mk (conflictDisplay
                d1.get_qualified_name d2.cdi_spec.path d1.cdi_spec.path)))]),
             (d1.cdi_spec.path,
              [SpecErr.mk (SpecErr.display (SpecErr.mk (conflictDisplay
                d1.get_qualified_name d2.cdi_spec.path d1.cdi_spec.path)))])]
      ∧ ∃ e, (c.refresh (.ok [s1, s2])).2 = .error e)
    ∧ (d2.cdi_spec.priority > d1.cdi_spec.priority →
      lookupA d1.get_qualified_name ((c.refresh (.ok [s1, s2])).1).devices = some d2
      ∧ ((c.refresh (.ok [s1, s2])).1).errors = []
      ∧ (c.refresh (.ok [s1, s2])).2 = .ok ())
    ∧ (d2.cdi_spec.priority < d1.cdi_spec.priority →
      lookupA d1.get_qualified_name ((c.refresh (.ok [s1, s2])).1).devices = some d1
      ∧ ((c.refresh (.ok [s1, s2])).1).errors = []
      ∧ (c.refresh (.ok [s1, s2])).2 = .ok ()) := by
  have hs1 : scan_spec_fn
      { selfSpecs := c.specs, devices := [], conflicts := [], spec_errors := [] } s1
      = { selfSpecs := specsEntryPush s1.core.vendor s1 c.specs,
          devices := [(d1.get_qualified_name, d1)], conflicts := [],
          spec_errors := [] } := by
    unfold scan_spec_fn
    rw [h1]
    rfl
  have hlk : lookupA d1.get_qualified_name [(d1.get_qualified_name, d1)] = some d1 := by
    simp [lookupA]
  have hp21 : ¬ (d2.cdi_spec.path = d1.cdi_spec.path) := fun hh => hpath hh.symm
  refine ⟨?_, ?_, ?_⟩
  · intro hp
    have hngt : ¬ (d2.cdi_spec.priority > d1.cdi_spec.priority) := by omega
    have hfold : List.foldl scan_spec_fn
        { selfSpecs := c.specs, devices := [], conflicts := [], spec_errors := [] } [s1, s2]
        = { selfSpecs := specsEntryPush s2.core.vendor s2
              (specsEntryPush s1.core.vendor s1 c.specs),
            devices := [(d1.get_qualified_name, d1)],
            conflicts := [d1.get_qualified_name],
            spec_errors := [(d2.cdi_spec.path,
              [SpecErr.mk (conflictDisplay d1.get_qualified_name d2.cdi_spec.path
                d1.cdi_spec.path)]),
              (d1.cdi_spec.path,
              [SpecErr.mk (conflictDisplay d1.get_qualified_name d2.cdi_spec.path
                d1.cdi_spec.path)])] } := by
      simp only [List.foldl]
      rw [hs1]
      unfold scan_spec_fn
      rw [h2]
      simp only [List.map, List.foldl]
      unfold scan_device
      dsimp only
      rw [hq, hlk]
      dsimp only
      unfold resolve_conflict
      dsimp only
      rw [if_neg hngt, if_pos hp.symm]
      dsimp only
      simp [collect_error, pushErr, lookupA, insertA, hp21]
    rw [refresh_ok_eval, hfold]
    refine ⟨by simp [lookupA], by simp [convert_errors], ⟨_, rfl⟩⟩
  · intro hgt
    have hfold : List.foldl scan_spec_fn
        { selfSpecs := c.specs, devices := [], conflicts := [], spec_errors := [] } [s1, s2]
        = { selfSpecs := specsEntryPush s2.core.vendor s2
              (specsEntryPush s1.core.vendor s1 c.specs),
            devices := [(d1.get_qualified_name, d2)],
            conflicts := [], spec_errors := [] } := by
      simp only [List.foldl]
      rw [hs1]
      unfold scan_spec_fn
      rw [h2]
      simp only [List.map, List.foldl]
      unfold scan_device
      dsimp only
      rw [hq, hlk]
      dsimp only
      unfold resolve_conflict
      dsimp only
      rw [if_pos hgt]
      dsimp only
      simp [insertA]
    rw [refresh_ok_eval, hfold]
    exact ⟨by simp [lookupA], rfl, rfl⟩
  · intro hlt
    have hngt : ¬ (d2.cdi_spec.priority > d1.cdi_spec.priority) := by omega
    have hne : ¬ (d2.cdi_spec.priority = d1.cdi_spec.priority) := by omega
    have hfold : List.foldl scan_spec_fn
        { selfSpecs := c.specs, devices := [], conflicts := [], spec_errors := [] } [s1, s2]
        = { selfSpecs := specsEntryPush s2.core.vendor s2
              (specsEntryPush s1.core.vendor s1 c.specs),
            devices := [(d1.get_qualified_name, d1)],
            conflicts := [], spec_errors := [] } := by
      simp only [List.foldl]
      rw [hs1]
      unfold scan_spec_fn
      rw [h2]
      simp only [List.map, List.foldl]
      unfold scan_device
      dsimp only
      rw [hq, hlk]
      dsimp only
      unfold resolve_conflict
      dsimp only
      rw [if_neg hngt, if_neg hne]
      rfl
    rw [refresh_ok_eval, hfold]
    exact ⟨by simp [lookupA], rfl, rfl⟩

/-- A raw device record named d with no edits. -/
def rawDevD : CDIDevice :=
  { name := ("d").toList, annots := [], container_edits := ceEmpty }

/-- A raw spec record of kind v/c with one device d and no global edits. -/
def rawSpecVC : CDISpec :=
  { version := ("0.3.0").toList, kind := ("v/c").toList, annots := [],
    devices := [rawDevD], container_edits := none }

/-- Spec core at a given priority and path for the v/c spec. -/
def sdAt (p : Int) (path : Str) : SpecData :=
  { cdi_spec := rawSpecVC, vendor := ("v").toList, cls := ("c").toList,
    path := path, priority := p }

/-- Device d of the v/c spec at a given priority and path. -/
def devAt (p : Int) (path : Str) : Device :=
  { cdi_device := rawDevD, cdi_spec := sdAt p path }

/-- Cache-level v/c spec at a given priority and path. -/
def specAt (p : Int) (path : Str) : Spec :=
  { core := sdAt p path, devices := [((("d").toList), devAt p path)] }

/-- The empty cache with auto-refresh disabled. -/
def cacheEmpty : Cache :=
  { spec_dirs := [], specs := [], devices := [], errors := [], dir_errors := [],
    auto_refresh := false }

/-- C1 (counterexample): two specs declare v/c=d. At equal priority the
claim says the device is absent from the resulting index, but refresh keeps
the first-scanned device. At priorities 0 and 1 the claim says the device
of the numerically lower priority (0) wins, but refresh keeps the device of
priority 1, silently. -/
theorem refresh_conflict_counterexample :
    lookupA (("v/c=d").toList)
        ((cacheEmpty.refresh (.ok [specAt 0 (("p1").toList), specAt 0 (("p2").toList)])).1).devices
      = some (devAt 0 (("p1").toList))
    ∧ lookupA (("v/c=d").toList)
        ((cacheEmpty.refresh (.ok [specAt 0 (("p1").toList), specAt 1 (("p2").toList)])).1).devices
      = some (devAt 1 (("p2").toList))
    ∧ devAt 1 (("p2").toList) ≠ devAt 0 (("p1").toList)
    ∧ (cacheEmpty.refresh (.ok [specAt 0 (("p1").toList), specAt 1 (("p2").toList)])).2
      = .ok () := by
  exact ⟨by rfl, by rfl, by decide, by rfl⟩

/-- C1 (witness): the amended theorem applied to the concrete equal-priority
pair (the conflicted device stays, an aggregate error is returned) and to
the concrete unequal-priority pair (the higher-priority device wins with no
error). -/
theorem refresh_conflict_amended_witness :
    (lookupA ((devAt 0 (("p1").toList)).get_qualified_name)
        ((cacheEmpty.refresh (.ok [specAt 0 (("p1").toList), specAt 0 (("p2").toList)])).1).devices
       = some (devAt 0 (("p1").toList))
     ∧ ∃ e, (cacheEmpty.refresh (.ok [specAt 0 (("p1").toList), specAt 0 (("p2").toList)])).2
       = .error e)
    ∧ (lookupA ((devAt 0 (("p1").toList)).get_qualified_name)
        ((cacheEmpty.refresh (.ok [specAt 0 (("p1").toList), specAt 1 (("p2").toList)])).1).devices
       = some (devAt 1 (("p2").toList))
     ∧ ((cacheEmpty.refresh (.ok [specAt 0 (("p1").toList), specAt 1 (("p2").toList)])).1).errors
       = []) :=
  ⟨⟨((refresh_conflict_amended cacheEmpty (specAt 0 (("p1").toList)) (specAt 0 (("p2").toList))
        (("d").toList) (("d").toList) (devAt 0 (("p1").toList)) (devAt 0 (("p2").toList))
        rfl rfl rfl (by decide)).1 rfl).1,
    ((refresh_conflict_amended cacheEmpty (specAt 0 (("p1").toList)) (specAt 0 (("p2").toList))
        (("d").toList) (("d").toList) (devAt 0 (("p1").toList)) (devAt 0 (("p2").toList))
        rfl rfl rfl (by decide)).1 rfl).2.2⟩,
   ⟨((refresh_conflict_amended cacheEmpty (specAt 0 (("p1").toList)) (specAt 1 (("p2").toList))
        (("d").toList) (("d").toList) (devAt 0 (("p1").toList)) (devAt 1 (("p2").toList))
        rfl rfl rfl (by decide)).2.1 (by decide)).1,
    ((refresh_conflict_amended cacheEmpty (specAt 0 (("p1").toList)) (specAt 1 (("p2").toList))
        (("d").toList) (("d").toList) (devAt 0 (("p1").toList)) (devAt 1 (("p2").toList))
        rfl rfl rfl (by decide)).2.1 (by decide)).2.1⟩⟩

/-! ## C3: a failing candidate aborts the scan -/

/-- A candidate file whose load succeeds with the v/c spec. -/
def goodEntry : ScanEntry :=
  { path := ("good.yaml").toList, is_candidate := true,
    load := fun p => .ok (specAt p (("good").toList)) }

/-- A candidate file whose load fails. -/
def badEntry : ScanEntry :=
  { path := ("bad.yaml").toList, is_candidate := true,
    load := fun _ => .error (("parse spec file failed").toList) }

theorem scan_dir_error_iff (p : Int) (entries : List ScanEntry) : ∀ (acc : List Spec),
    (∃ er, scan_dir p acc entries = .error er)
      ↔ entries.any (fun e => e.is_candidate &&
          (match e.load p with | .ok _ => false | .error _ => true)) = true := by
  induction entries with
  | nil =>
    intro acc
    simp [scan_dir]
  | cons en rest ih =>
    intro acc
    simp only [scan_dir, List.any_cons]
    by_cases hc : en.is_candidate = true
    · rw [if_pos hc]
      cases hl : en.load p with
      | ok sp => simp [hc, hl, ih]
      | error er => simp [hc, hl]
    · rw [if_neg hc]
      simp only [Bool.not_eq_true] at hc
      simp [hc, ih]

theorem scan_go_error_iff (dirs : List (Option (List ScanEntry))) :
    ∀ (p : Int) (acc : List Spec),
    (∃ e, scan_spec_dirs_go p acc dirs = .error e)
      ↔ hasFailingCandidate_go p dirs = true := by
  induction dirs with
  | nil =>
    intro p acc
    simp [scan_spec_dirs_go, hasFailingCandidate_go]
  | cons d rest ih =>
    intro p acc
    cases d with
    | none => simp [scan_spec_dirs_go, hasFailingCandidate_go, ih]
    | some entries =>
      simp only [scan_spec_dirs_go, hasFailingCandidate_go]
      cases hsd : scan_dir p acc entries with
      | ok acc2 =>
        have hany : ¬ (entries.any (fun e => e.is_candidate &&
            (match e.load p with | .ok _ => false | .error _ => true)) = true) := by
          rw [← scan_dir_error_iff p entries acc]
          rintro ⟨er, her⟩
          rw [hsd] at her
          exact Except.noConfusion her
        simp only [Bool.not_eq_true] at hany
        simp [hany, ih]
      | error e =>
        have hany : entries.any (fun e => e.is_candidate &&
            (match e.load p with | .ok _ => false | .error _ => true)) = true :=
          (scan_dir_error_iff p entries acc).1 ⟨e, hsd⟩
        simp [hany]

/-- C3 (counterexample): the claim states that one bad file is recorded by
path and never aborts the scan, with specs from other files still indexed.
Scanning one directory holding a good candidate, a bad candidate and
another good candidate instead aborts the whole scan with an error, and the
refresh driven by it leaves the cache untouched: no per-file error entry
and no good spec indexed. -/
theorem scan_abort_counterexample :
    (∃ e, scan_spec_dirs [some [goodEntry, badEntry, goodEntry]] = .error e)
    ∧ (cacheEmpty.refresh (scan_spec_dirs [some [goodEntry, badEntry, goodEntry]])).1
        = cacheEmpty :=
  ⟨⟨_, rfl⟩, rfl⟩

/-- C3 (amended): a load failure of any candidate aborts the directory scan
with an error (the scan returns an error exactly when some candidate fails
to load at the priority of its directory), and Cache::refresh propagates a
scan error unchanged, leaving the cache state exactly as it was, with no
per-file error recorded and no spec indexed. -/
theorem scan_abort_amended :
    (∀ dirs, (∃ e, scan_spec_dirs dirs = .error e) ↔ hasFailingCandidate dirs = true)
    ∧ (∀ (c : Cache) (e : Str), c.refresh (.error e) = (c, .error e)) :=
  ⟨fun dirs => scan_go_error_iff dirs 0 [], fun _ _ => rfl⟩

/-- C3 (witness): the amended theorem applied to one directory holding a
good and a bad candidate, and to a concrete scan error. -/
theorem scan_abort_amended_witness :
    hasFailingCandidate [some [goodEntry, badEntry]] = true
    ∧ (∃ e, scan_spec_dirs [some [goodEntry, badEntry]] = .error e)
    ∧ cacheEmpty.refresh (.error (("x").toList)) = (cacheEmpty, .error (("x").toList)) :=
  ⟨by decide,
   (scan_abort_amended.1 [some [goodEntry, badEntry]]).2 (by decide),
   scan_abort_amended.2 cacheEmpty (("x").toList)⟩

/-! ## C4: all-or-nothing injection on unresolved names -/

theorem filter_ne_nil_of_any {α : Type} (p : α → Bool) (l : List α)
    (h : l.any p = true) : l.filter p ≠ [] := by
  induction l with
  | nil => simp at h
  | cons x rest ih =>
    simp only [List.any_cons, Bool.or_eq_true] at h
    rcases h with h | h
    · simp [List.filter_cons, h]
    · by_cases hx : p x = true
      · simp [List.filter_cons, hx]
      · simp only [List.filter_cons, hx]
        simp only [Bool.false_eq_true, if_false]
        exact ih h

theorem injectLoop_unresolved (c : Cache) (names : List Str) :
    ∀ (e : ContainerEdits) (seen : List SpecData) (u : List Str),
    (injectLoop c names (e, seen, u)).2.2
      = u ++ names.filter (fun n => (lookupA n c.devices).isNone) := by
  induction names with
  | nil =>
    intro e seen u
    simp [injectLoop]
  | cons n rest ih =>
    intro e seen u
    simp only [injectLoop]
    cases hl : lookupA n c.devices with
    | some dev =>
      simp only [hl]
      have hfil : (n :: rest).filter (fun n => (lookupA n c.devices).isNone)
          = rest.filter (fun n => (lookupA n c.devices).isNone) := by
        simp [List.filter_cons, hl]
      rw [hfil]
      by_cases hs : seen.contains dev.cdi_spec = true
      · rw [if_pos hs]
        exact ih _ _ _
      · rw [if_neg hs]
        cases hce : dev.cdi_spec.edits with
        | some ce =>
          simp only [hce]
          exact ih _ _ _
        | none =>
          simp only [hce]
          exact ih _ _ _
    | none =>
      simp only [hl]
      rw [ih]
      simp [List.filter_cons, hl]

/-- C4: a call to inject_devices with at least one requested name missing
from the device index (after the optional auto refresh) fails with an error
listing every unresolved name, in request order, and the target OCI spec
object is returned completely unmodified, whatever the apply function would
have done. -/
theorem inject_devices_unresolved {σ : Type} (apply_fn : ContainerEdits → σ → Except Str σ)
    (c : Cache) (scan_result : Except Str (List Spec)) (sp : σ) (names : List Str)
    (h : names.any (fun n =>
        (lookupA n ((c.refresh_if_required scan_result false).1).devices).isNone) = true) :
    Cache.inject_devices apply_fn c scan_result (some sp) names
      = ((c.refresh_if_required scan_result false).1, some sp,
         .error (("unresolvable CDI devices ").toList ++ joinSep ((", ").toList)
           (names.filter (fun n =>
             (lookupA n ((c.refresh_if_required scan_result false).1).devices).isNone)))) := by
  have hu := injectLoop_unresolved ((c.refresh_if_required scan_result false).1) names
    ContainerEdits.new [] []
  rw [List.nil_append] at hu
  have hne := filter_ne_nil_of_any
    (fun n => (lookupA n ((c.refresh_if_required scan_result false).1).devices).isNone)
    names h
  unfold Cache.inject_devices
  dsimp only
  rw [hu, if_neg hne]

/-- C4 (witness): the theorem applied to the empty cache and the single
unknown name unknown/x=y, with the identity-flavored apply function on the
edit type itself. -/
theorem inject_devices_unresolved_witness :
    Cache.inject_devices (σ := ContainerEdits) (fun e _ => .ok e) cacheEmpty (.ok [])
        (some ContainerEdits.new) [("unknown/x=y").toList]
      = (cacheEmpty, some ContainerEdits.new,
         .error (("unresolvable CDI devices unknown/x=y").toList)) :=
  (inject_devices_unresolved (fun e _ => .ok e) cacheEmpty (.ok [])
    ContainerEdits.new [("unknown/x=y").toList] (by decide)).trans (by rfl)

/-! ## C5: device edits skipped when the owning Spec has no global edits -/

/-- Edits holding the single environment entry A=1. -/
def envCE : CDIContainerEdits := { ceEmpty with env := some [("A=1").toList] }

/-- A device named d whose edits set env A=1, owned by the v/c spec that has
no global edits. -/
def dev5 : Device :=
  { cdi_device := { name := ("d").toList, annots := [], container_edits := envCE },
    cdi_spec := sdAt 0 (("p1").toList) }

/-- A cache resolving v/c=d to dev5. -/
def cache5 : Cache := { cacheEmpty with devices := [((("v/c=d").toList), dev5)] }

/-- C5: the claim states that a device contributes its own edits even when
its owning Spec has no global edits. On the first device of such a Spec the
source continues out of the loop iteration right after registering the Spec
(the None arm of the match on the global edits), skipping the append of the
device edits: injecting v/c=d accumulates no edits at all, although the
device declares env A=1. The apply function here returns the accumulated
edit set as the final OCI object, exposing it as empty. -/
theorem inject_skips_device_edits_without_global_edits :
    Cache.inject_devices (σ := ContainerEdits) (fun e _ => .ok e) cache5 (.ok [])
        (some ContainerEdits.new) [("v/c=d").toList]
      = (cache5, some ContainerEdits.new, .ok [])
    ∧ dev5.edits ≠ ContainerEdits.new := by
  exact ⟨rfl, by decide⟩
